import Mathlib

/-!
Verification of the Ozwel-AI-Embed chat widget against its specification.

The JavaScript sources are shallowly embedded: JS strings become `List Char`,
JS values that flow through the tool-call plumbing become the inductive
`JSValue`, and each method under scrutiny becomes a Lean function that is a
line-by-line translation of its source.  Host builtins that the code calls
(`JSON.parse`, `fetch`, `Date.now`, `Math.random`) are taken as explicit
parameters, so every theorem quantifies over their behaviour.
-/

set_option maxHeartbeats 1000000

/-! ### JavaScript string primitives -/

/-- JS strings are modelled as lists of characters. -/
abbrev JSStr := List Char

/-- Conversion from Lean string literals. -/
def jstr (s : String) : JSStr := s.data

/-- Whitespace recognised by `String.prototype.trim` and by the regex class
`\s` (ASCII part plus NBSP; the sources only ever meet ASCII whitespace). -/
def isJsWs (c : Char) : Bool :=
  c = ' ' || c = '\t' || c = '\n' || c = '\r' || c = '\x0b' || c = '\x0c' || c = ' '

/-- JS `s.trim()`. -/
def jsTrim (s : JSStr) : JSStr :=
  ((s.dropWhile isJsWs).reverse.dropWhile isJsWs).reverse

/-- JS `s.startsWith(pat)`: `strStarts s pat` is true when `pat` is a prefix
of `s`. -/
def strStarts : JSStr → JSStr → Bool
  | _, [] => true
  | [], _ :: _ => false
  | c :: s, p :: ps => c = p && strStarts s ps

/-- JS `s.includes(pat)`: substring containment. -/
def jsIncludes (s pat : JSStr) : Bool :=
  s.tails.any (fun t => strStarts t pat)

/-- JS `s.split(sep)` for a one-character separator; splitting the empty
string yields a singleton holding the empty string. -/
def splitOnChar (c : Char) : JSStr → List JSStr
  | [] => [[]]
  | x :: rest =>
    match splitOnChar c rest with
    | [] => [[]]
    | h :: t => if x = c then [] :: h :: t else (x :: h) :: t

/-- JS `s.replace(pat, repl)` for a plain (non-regex) pattern: replaces the
first occurrence only. -/
def replaceFirst (pat repl : JSStr) : JSStr → JSStr
  | [] => if strStarts [] pat then repl else []
  | c :: rest =>
    if strStarts (c :: rest) pat then repl ++ (c :: rest).drop pat.length
    else c :: replaceFirst pat repl rest

/-- JS `s.toLowerCase()` (ASCII range, which is all the sources use). -/
def toLowerStr (s : JSStr) : JSStr := s.map Char.toLower

/-- The single-quote character, spliced into message strings that contain it
in the JS source. -/
def sqc : JSStr := [Char.ofNat 39]

/-! ### JavaScript values -/

/-- JS values that flow through the tool-call plumbing. -/
inductive JSValue where
  | null
  | undef
  | bool (b : Bool)
  | num (n : ℚ)
  | str (s : JSStr)
  | arr (elems : List JSValue)
  | obj (fields : List (JSStr × JSValue))

/-! ### Tool-call parsing (llm-manager.js 471-506, OzwellIntegration 583-611) -/

/-- Result objects pushed by `LLMManager.parseOzwellToolCalls`
(`{name, parameters, provider}`). -/
structure OzwellToolCall where
  name : JSStr
  parameters : JSValue
  provider : JSStr

/-- Result objects returned by `OzwellIntegration.parseToolCalls`
(`{name, parameters}` — no provider field). -/
structure SimpleToolCall where
  name : JSStr
  parameters : JSValue

def toolCallTag : JSStr := jstr "TOOL_CALL:"

def paramsTag : JSStr := jstr "PARAMS:"

/-- Loop body shared by both heuristic parsers (llm-manager.js 480-493,
OzwellIntegration 588-600).  The accumulator is the pair of the mutable
`toolCall` (JS `null` or a string) and `params` (initially JS `null`).
`JSON.parse` is the `jsonParse` parameter; on its failure the code strips
every double quote from the remainder. -/
def ozwellLineStep (jsonParse : JSStr → Option JSValue)
    (acc : Option JSStr × JSValue) (rawLine : JSStr) : Option JSStr × JSValue :=
  let line := jsTrim rawLine
  if strStarts line toolCallTag then
    (some (jsTrim (replaceFirst toolCallTag [] line)), acc.2)
  else if strStarts line paramsTag then
    let paramsStr := jsTrim (replaceFirst paramsTag [] line)
    (acc.1,
      match jsonParse paramsStr with
      | some v => v
      | none => JSValue.str (paramsStr.filter (fun c => c ≠ '"')))
  else acc

namespace LLMManager

/-- `LLMManager.parseOzwellToolCalls` (llm-manager.js 471-506) on string
input; non-string input is rejected by the `typeof` guard before this logic
runs.  The final `if (toolCall)` is JS truthiness: `null` and the empty
string are both falsy. -/
def parseOzwellToolCalls (jsonParse : JSStr → Option JSValue)
    (response : JSStr) : List OzwellToolCall :=
  let lines := splitOnChar '\n' response
  let res := lines.foldl (ozwellLineStep jsonParse) (none, JSValue.null)
  match res.1 with
  | some toolCall =>
      if toolCall ≠ [] then [⟨toolCall, res.2, jstr "ozwell"⟩] else []
  | none => []

end LLMManager

namespace OzwellIntegration

/-- `OzwellIntegration.parseToolCalls` (part_002 583-611): same loop, but no
`typeof` guard and no `provider` field in the result. -/
def parseToolCalls (jsonParse : JSStr → Option JSValue)
    (response : JSStr) : List SimpleToolCall :=
  let lines := splitOnChar '\n' response
  let res := lines.foldl (ozwellLineStep jsonParse) (none, JSValue.null)
  match res.1 with
  | some toolCall =>
      if toolCall ≠ [] then [⟨toolCall, res.2⟩] else []
  | none => []

end OzwellIntegration

/-! Specification-side view of the parsers, written from the claim text:
the name comes from the last `TOOL_CALL:` line, the parameters from the
last `PARAMS:` line. -/

/-- The tool name contributed by one line: the trimmed text following
`TOOL_CALL:` when the trimmed line starts with that tag. -/
def toolNameOfLine (l : JSStr) : Option JSStr :=
  let t := jsTrim l
  if strStarts t toolCallTag then some (jsTrim (t.drop toolCallTag.length))
  else none

/-- The parameter value contributed by one line (the `else if` branch of the
loop, hence the guard that the line is not a `TOOL_CALL:` line). -/
def paramsOfLine (jsonParse : JSStr → Option JSValue) (l : JSStr) :
    Option JSValue :=
  let t := jsTrim l
  if strStarts t toolCallTag then none
  else if strStarts t paramsTag then
    let p := jsTrim (t.drop paramsTag.length)
    some (match jsonParse p with
          | some v => v
          | none => JSValue.str (p.filter (fun c => c ≠ '"')))
  else none

/-- Name on the last `TOOL_CALL:` line of the response, if any. -/
def lastToolName (s : JSStr) : Option JSStr :=
  ((splitOnChar '\n' s).filterMap toolNameOfLine).getLast?

/-- Parameters from the last `PARAMS:` line of the response; JS `null` when
there is none. -/
def lastParams (jsonParse : JSStr → Option JSValue) (s : JSStr) : JSValue :=
  (((splitOnChar '\n' s).filterMap (paramsOfLine jsonParse)).getLast?).getD
    JSValue.null

/-! ### Medical data manager (part_003) -/

namespace MedicalDataManager

/-- Medication records (part_003 constructor and `addMedication`); the
optional fields are properties that only some code paths attach. -/
structure Medication where
  id : JSStr
  name : JSStr
  dose : JSStr
  frequency : JSStr
  indication : JSStr
  startDate : JSStr
  prescriber : JSStr
  status : JSStr
  dateAdded : Option JSStr := none
  discontinueDate : Option JSStr := none
  discontinueReason : Option JSStr := none

/-- Allergy records (part_003 constructor and `addAllergy`). -/
structure Allergy where
  id : JSStr
  allergen : JSStr
  reaction : JSStr
  severity : JSStr
  dateRecorded : JSStr
  recordedBy : Option JSStr := none

/-- Condition records (part_003 constructor). -/
structure Condition where
  id : JSStr
  name : JSStr
  icd10 : JSStr
  status : JSStr
  diagnosisDate : JSStr

/-- The in-memory `this.patientData` object.  `patientInfo` and `vitals` are
plain JS objects the medication operations never look into, so they are kept
as generic `JSValue`s. -/
structure PatientData where
  patientInfo : JSValue
  medications : List Medication
  allergies : List Allergy
  conditions : List Condition
  vitals : JSValue

/-- Demo data installed by the constructor (part_003 lines 5-68). -/
def demoPatientData : PatientData where
  patientInfo := JSValue.obj
    [(jstr "name", JSValue.str (jstr "Demo Patient")),
     (jstr "age", JSValue.num 45),
     (jstr "patientId", JSValue.str (jstr "PAT-001")),
     (jstr "mrn", JSValue.str (jstr "MRN123456"))]
  medications :=
    [{ id := jstr "med-001", name := jstr "Lisinopril", dose := jstr "10mg",
       frequency := jstr "once daily", indication := jstr "Hypertension",
       startDate := jstr "2024-01-15", prescriber := jstr "Dr. Smith",
       status := jstr "active" },
     { id := jstr "med-002", name := jstr "Metformin", dose := jstr "500mg",
       frequency := jstr "twice daily", indication := jstr "Type 2 Diabetes",
       startDate := jstr "2024-02-01", prescriber := jstr "Dr. Johnson",
       status := jstr "active" }]
  allergies :=
    [{ id := jstr "allergy-001", allergen := jstr "Penicillin",
       reaction := jstr "Rash", severity := jstr "Moderate",
       dateRecorded := jstr "2024-01-10" }]
  conditions :=
    [{ id := jstr "cond-001", name := jstr "Essential Hypertension",
       icd10 := jstr "I10", status := jstr "active",
       diagnosisDate := jstr "2024-01-15" },
     { id := jstr "cond-002", name := jstr "Type 2 Diabetes Mellitus",
       icd10 := jstr "E11.9", status := jstr "active",
       diagnosisDate := jstr "2024-02-01" }]
  vitals := JSValue.obj
    [(jstr "lastRecorded", JSValue.str (jstr "2024-08-18")),
     (jstr "bloodPressure", JSValue.str (jstr "130/85")),
     (jstr "heartRate", JSValue.num 72),
     (jstr "temperature", JSValue.num 98.6),
     (jstr "respiratoryRate", JSValue.num 16),
     (jstr "oxygenSaturation", JSValue.num 98)]

/-- Hard-coded drug classes of `checkDrugClassAllergy` (part_003 283-287), in
object-literal insertion order. -/
def drugClasses : List (JSStr × List JSStr) :=
  [(jstr "penicillin",
    [jstr "amoxicillin", jstr "ampicillin", jstr "penicillin"]),
   (jstr "sulfa", [jstr "sulfamethoxazole", jstr "sulfasalazine"]),
   (jstr "nsaid",
    [jstr "ibuprofen", jstr "naproxen", jstr "aspirin", jstr "celecoxib"])]

/-- `checkDrugClassAllergy` (part_003 282-296).  The loop returns on the
FIRST class whose name occurs in the allergen, so later classes are not
consulted; `findSome?` reproduces that early return. -/
def checkDrugClassAllergy (medication allergen : JSStr) : Bool :=
  (drugClasses.findSome? (fun cd =>
    if jsIncludes allergen cd.1 then
      some (cd.2.any (fun drug => jsIncludes medication drug))
    else none)).getD false

/-- Result of `checkAllergies`: `{hasAllergy:false}` or
`{hasAllergy:true, allergen, reaction, severity}`. -/
structure AllergyCheck where
  hasAllergy : Bool
  allergen : Option JSStr := none
  reaction : Option JSStr := none
  severity : Option JSStr := none

/-- `checkAllergies` (part_003 251-279): first allergy that matches directly
(either name contains the other, lowercased) or through a drug class wins. -/
def checkAllergies (pd : PatientData) (medicationName : JSStr) : AllergyCheck :=
  let med := toLowerStr medicationName
  match pd.allergies.findSome? (fun allergy =>
    let allergen := toLowerStr allergy.allergen
    if jsIncludes med allergen || jsIncludes allergen med then some allergy
    else if checkDrugClassAllergy med allergen then some allergy
    else none) with
  | some allergy =>
      { hasAllergy := true, allergen := some allergy.allergen,
        reaction := some allergy.reaction, severity := some allergy.severity }
  | none => { hasAllergy := false }

/-- Input object for `addMedication`; `none` is an absent (undefined)
property, and the `||`-defaults in the code send the falsy empty string to
the same defaults. -/
structure MedicationInput where
  name : JSStr
  dose : Option JSStr := none
  frequency : Option JSStr := none
  indication : Option JSStr := none
  startDate : Option JSStr := none
  prescriber : Option JSStr := none

/-- Return value of `addMedication`: the success object or the
`{success:false, error}` object built in the catch block. -/
inductive AddMedicationResult where
  | ok (medication : Medication) (message : JSStr) (warnings : List JSStr)
  | err (error : JSStr)

/-- `addMedication` (part_003 114-161).  `generateId`, the default start
date and `new Date().toISOString()` are impure, so their outputs are the
`genId`, `today` and `nowIso` parameters. -/
def addMedication (genId today nowIso : JSStr) (pd : PatientData)
    (input : MedicationInput) : PatientData × AddMedicationResult :=
  let newMedication : Medication :=
    { id := genId
      name := input.name
      dose := input.dose.getD []
      frequency := input.frequency.getD []
      indication := input.indication.getD []
      startDate := input.startDate.getD today
      prescriber := input.prescriber.getD (jstr "System")
      status := jstr "active"
      dateAdded := some nowIso }
  match pd.medications.find? (fun med =>
      (toLowerStr med.name == toLowerStr newMedication.name) &&
      (med.status == jstr "active")) with
  | some _ =>
      (pd, .err (jstr "Patient is already on " ++ newMedication.name ++
        jstr ". Consider updating the existing medication instead."))
  | none =>
      let allergyCheck := checkAllergies pd newMedication.name
      ({ pd with medications := pd.medications ++ [newMedication] },
       .ok newMedication
         (jstr "Successfully added " ++ newMedication.name ++ jstr " " ++
           newMedication.dose ++ jstr " " ++ newMedication.frequency)
         (if allergyCheck.hasAllergy then
            [jstr "ALLERGY WARNING: Patient allergic to " ++
              (allergyCheck.allergen.getD [])]
          else []))

/-- The in-place mutation performed on the matched medication
(part_003 182-184). -/
def discontinueUpdate (today : JSStr) (med : Medication) : Medication :=
  { med with status := jstr "discontinued",
             discontinueDate := some today,
             discontinueReason :=
               some (jstr "Discontinued via AI Assistant") }

/-- Walk of the medications array that applies `discontinueUpdate` to the
first element satisfying `p` (the JS `find` returns that element and the
method mutates it in place); also returns the matched element. -/
def discontinueInList (today : JSStr) (p : Medication → Bool) :
    List Medication → List Medication × Option Medication
  | [] => ([], none)
  | med :: rest =>
    if p med then (discontinueUpdate today med :: rest, some med)
    else
      let r := discontinueInList today p rest
      (med :: r.1, r.2)

/-- Return value of `discontinueMedication`. -/
inductive DiscontinueResult where
  | ok (id name dose frequency : JSStr) (message : JSStr)
  | err (error : JSStr)

/-- `discontinueMedication` (part_003 164-205): find by exact id among
active medications, then by case-insensitive name among active ones; throw
(caught into `{success:false}`) when neither matches. -/
def discontinueMedication (today : JSStr) (pd : PatientData) (medId : JSStr) :
    PatientData × DiscontinueResult :=
  let pId := fun (med : Medication) =>
    (med.id == medId) && (med.status == jstr "active")
  let pName := fun (med : Medication) =>
    (toLowerStr med.name == toLowerStr medId) && (med.status == jstr "active")
  let r1 := discontinueInList today pId pd.medications
  match r1.2 with
  | some med =>
      ({ pd with medications := r1.1 },
       .ok med.id med.name med.dose med.frequency
         (jstr "Successfully discontinued " ++ med.name))
  | none =>
      let r2 := discontinueInList today pName pd.medications
      match r2.2 with
      | some med =>
          ({ pd with medications := r2.1 },
           .ok med.id med.name med.dose med.frequency
             (jstr "Successfully discontinued " ++ med.name))
      | none =>
          (pd, .err (jstr "Medication " ++ sqc ++ medId ++ sqc ++
            jstr " not found or already discontinued"))

end MedicalDataManager

/-! ### localStorage and resetToDemo -/

/-- The browser localStorage, as a partial map from keys to strings. -/
def Storage : Type := JSStr → Option JSStr

def getItem (storage : Storage) (k : JSStr) : Option JSStr := storage k

def setItem (storage : Storage) (k v : JSStr) : Storage :=
  fun q => if q = k then some v else storage q

def removeItem (storage : Storage) (k : JSStr) : Storage :=
  fun q => if q = k then none else storage q

def emptyStorage : Storage := fun _ => none

namespace MedicalDataManager

/-- Success object `resetToDemo` would return (part_003 412-415). -/
structure ResetOk where
  success : Bool
  message : JSStr

/-- Plain-function invocation of an ES2015 class constructor
(part_003 line 411, `this.constructor()`): the language throws a TypeError
before any of the constructor body runs. -/
def constructorPlainCall (α : Type) : Except JSStr α :=
  Except.error (jstr "TypeError: Class constructor MedicalDataManager cannot be invoked without " ++
    sqc ++ jstr "new" ++ sqc)

/-- `resetToDemo` (part_003 409-416): removes the localStorage entry, then
invokes `this.constructor()` without `new`, so the remaining statements are
dead code. -/
def resetToDemo (storage : Storage) (pd : PatientData) :
    Storage × PatientData × Except JSStr ResetOk :=
  let storage2 := removeItem storage (jstr "medicalData")
  match constructorPlainCall Unit with
  | .error e => (storage2, pd, .error e)
  | .ok _ => (storage2, pd, .ok ⟨true, jstr "Data reset to demo state"⟩)

end MedicalDataManager

/-! ### LLM manager provider configuration (llm-manager.js) -/

/-- Chat messages `{role, content}`. -/
structure ChatMessage where
  role : JSStr
  content : JSStr

namespace LLMManager

/-- The two keys of `this.providers`. -/
inductive Provider where
  | openai
  | ozwell
deriving DecidableEq

/-- The provider key string used in localStorage keys, error messages and
the dropdown value. -/
def providerKey : Provider → JSStr
  | .openai => jstr "openai"
  | .ozwell => jstr "ozwell"

/-- Reverse lookup used by `this.providers[savedProvider]`. -/
def providerOfKey (s : JSStr) : Option Provider :=
  if s = jstr "openai" then some .openai
  else if s = jstr "ozwell" then some .ozwell
  else none

/-- One entry of `this.providers` (llm-manager.js 5-20). -/
structure ProviderCfg where
  name : JSStr
  apiKey : Option JSStr
  model : JSStr
  baseUrl : JSStr
  configured : Bool

/-- The manager state: `this.currentProvider` and `this.providers`. -/
structure LLMState where
  currentProvider : Option Provider
  openai : ProviderCfg
  ozwell : ProviderCfg

/-- `this.providers[p]`. -/
def LLMState.provider (st : LLMState) : Provider → ProviderCfg
  | .openai => st.openai
  | .ozwell => st.ozwell

/-- Constructor defaults (llm-manager.js 3-20), before
`loadSavedConfigurations` runs. -/
def defaultState : LLMState where
  currentProvider := none
  openai :=
    { name := jstr "OpenAI", apiKey := none, model := jstr "gpt-3.5-turbo",
      baseUrl := jstr "https://api.openai.com/v1/chat/completions",
      configured := false }
  ozwell :=
    { name := jstr "Ozwell", apiKey := none, model := jstr "ozwell-medical-v1",
      baseUrl := jstr "https://ai.bluehive.com/api/v1/completion",
      configured := false }

/-- OpenAI block of `loadSavedConfigurations` (llm-manager.js 27-36).
`if (openaiKey)` is truthiness: null and the empty string fail it. -/
def loadOpenAIConfig (storage : Storage) (st : LLMState) : LLMState :=
  match getItem storage (jstr "openai_api_key") with
  | some k =>
      if k ≠ [] then
        let o1 := { st.openai with apiKey := some k, configured := true }
        let o2 := match getItem storage (jstr "openai_model") with
          | some m => if m ≠ [] then { o1 with model := m } else o1
          | none => o1
        { st with openai := o2 }
      else st
  | none => st

/-- Ozwell block of `loadSavedConfigurations` (llm-manager.js 38-51). -/
def loadOzwellConfig (storage : Storage) (st : LLMState) : LLMState :=
  match getItem storage (jstr "ozwell_api_key") with
  | some k =>
      if k ≠ [] then
        let o1 := { st.ozwell with apiKey := some k, configured := true }
        let o2 := match getItem storage (jstr "ozwell_model") with
          | some m => if m ≠ [] then { o1 with model := m } else o1
          | none => o1
        let o3 := match getItem storage (jstr "ozwell_api_url") with
          | some u => if u ≠ [] then { o2 with baseUrl := u } else o2
          | none => o2
        { st with ozwell := o3 }
      else st
  | none => st

/-- Provider-selection block of `loadSavedConfigurations`
(llm-manager.js 53-57). -/
def loadCurrentProvider (storage : Storage) (st : LLMState) : LLMState :=
  match getItem storage (jstr "current_llm_provider") with
  | some sp =>
      if sp ≠ [] then
        match providerOfKey sp with
        | some p =>
            if (st.provider p).configured then
              { st with currentProvider := some p }
            else st
        | none => st
      else st
  | none => st

/-- `loadSavedConfigurations` (llm-manager.js 26-58). -/
def loadSavedConfigurations (storage : Storage) (st : LLMState) : LLMState :=
  loadCurrentProvider storage (loadOzwellConfig storage (loadOpenAIConfig storage st))

/-- A fresh `new LLMManager()` over the given localStorage. -/
def freshManager (storage : Storage) : LLMState :=
  loadSavedConfigurations storage defaultState

/-- Configuration object handed to `saveConfiguration`; `none` for
`baseUrl` is an absent property. -/
structure LLMConfig where
  apiKey : JSStr
  model : JSStr
  baseUrl : Option JSStr := none

/-- `saveConfiguration` (llm-manager.js 60-81) for a known provider: write
the localStorage keys (`baseUrl` only when truthy) and spread the config
over the provider entry with `configured: true`. -/
def saveConfiguration (p : Provider) (config : LLMConfig) (storage : Storage)
    (st : LLMState) : Storage × LLMState :=
  let s1 := setItem storage (providerKey p ++ jstr "_api_key") config.apiKey
  let s2 := setItem s1 (providerKey p ++ jstr "_model") config.model
  let s3 := match config.baseUrl with
    | some u => if u ≠ [] then setItem s2 (providerKey p ++ jstr "_api_url") u
                else s2
    | none => s2
  let upd := fun (old : ProviderCfg) =>
    { old with apiKey := some config.apiKey, model := config.model,
               baseUrl := (match config.baseUrl with
                           | some u => u
                           | none => old.baseUrl),
               configured := true }
  let st2 := match p with
    | .openai => { st with openai := upd st.openai }
    | .ozwell => { st with ozwell := upd st.ozwell }
  (s3, st2)

/-- `isProviderConfigured` (llm-manager.js 110-112). -/
def isProviderConfigured (st : LLMState) (p : Provider) : Bool :=
  (st.provider p).configured

/-- Pre-call failures of `generateResponse` (llm-manager.js 130-137),
tagged; `errorMessage` renders the exact thrown strings. -/
inductive LLMError where
  | noProvider
  | notConfigured (p : Provider)

def errorMessage : LLMError → JSStr
  | .noProvider => jstr "No LLM provider selected"
  | .notConfigured p => jstr "Provider " ++ providerKey p ++
      jstr " is not configured"

/-- Message rendering for anything `processMessage` may catch: a tagged
pre-call error or an error string thrown by the HTTP layer. -/
def thrownMessage : LLMError ⊕ JSStr → JSStr
  | .inl e => errorMessage e
  | .inr s => s

/-- Request bodies built by `callOpenAI` / `callOzwell`
(llm-manager.js 238-246 and 264-269); the constant fields (the hard-coded
tools array, temperature, max_tokens, stream:false) are omitted since no
theorem inspects them. -/
inductive LLMRequestBody where
  | openaiBody (model : JSStr) (messages : List ChatMessage)
  | ozwellBody (prompt : JSStr)

/-- The HTTP request issued through `fetch`. -/
structure HttpRequest where
  url : JSStr
  authorization : JSStr
  body : LLMRequestBody

/-- `convertMessagesToPrompt` (llm-manager.js 283-302). -/
def convertMessagesToPrompt (messages : List ChatMessage) : JSStr :=
  (messages.foldl (fun prompt message =>
    if message.role == jstr "system" then
      prompt ++ jstr "System: " ++ message.content ++ jstr "\n\n"
    else if message.role == jstr "user" then
      prompt ++ jstr "Human: " ++ message.content ++ jstr "\n\n"
    else if message.role == jstr "assistant" then
      prompt ++ jstr "Assistant: " ++ message.content ++ jstr "\n\n"
    else prompt ++ message.content ++ jstr "\n\n") []) ++ jstr "Assistant:"

/-- The `Bearer` header value; the template coerces a null apiKey to the
string null. -/
def bearerOf (cfg : ProviderCfg) : JSStr :=
  jstr "Bearer " ++ (match cfg.apiKey with
                     | some k => k
                     | none => jstr "null")

/-- Tag of the outcome of the HTTP layer: anything it throws is an `.inr`
error, distinct from the two pre-call throws. -/
def wrapFetch (r : Except JSStr JSStr) : Except (LLMError ⊕ JSStr) JSStr :=
  match r with
  | .ok s => .ok s
  | .error e => .error (.inr e)

/-- `generateResponse` (llm-manager.js 129-147), non-streaming path.  The
network and the response handling are the abstract `fetchResult`; the
outputs are the unchanged state, the list of HTTP requests issued, and the
result (pre-call errors tagged `.inl`, HTTP-layer throws tagged `.inr`). -/
def generateResponse (st : LLMState) (messages : List ChatMessage)
    (fetchResult : HttpRequest → Except JSStr JSStr) :
    LLMState × List HttpRequest × Except (LLMError ⊕ JSStr) JSStr :=
  match st.currentProvider with
  | none => (st, [], .error (.inl .noProvider))
  | some p =>
    let cfg := st.provider p
    if cfg.configured = false then (st, [], .error (.inl (.notConfigured p)))
    else
      let req : HttpRequest := match p with
        | .openai =>
            { url := cfg.baseUrl, authorization := bearerOf cfg,
              body := .openaiBody cfg.model messages }
        | .ozwell =>
            { url := cfg.baseUrl, authorization := bearerOf cfg,
              body := .ozwellBody (convertMessagesToPrompt messages) }
      (st, [req], wrapFetch (fetchResult req))

end LLMManager

/-! ### Ozwell integration (part_002) -/

namespace OzwellIntegration

/-- The `this.toolsContext` object; only the truthiness of its
`availableTools` field is ever consulted. -/
structure ToolsContext where
  availableTools : Bool

/-- The mutable fields of `OzwellIntegration` that `generateResponse`
reads or writes. -/
structure OzwellState where
  apiKey : Option JSStr
  baseUrl : JSStr
  model : JSStr
  useSimulationMode : Bool
  toolsContext : Option ToolsContext

/-- Environment variables found by `loadEnvironmentVariables`; every field
is `none` when the `.env` fetch fails or the key is missing. -/
structure EnvVars where
  OZWELL_API_KEY : Option JSStr := none
  OZWELL_BASE_URL : Option JSStr := none
  OZWELL_MODEL : Option JSStr := none
  FORCE_SIMULATION_MODE : Option JSStr := none

/-- `loadEnvironmentVariables` (part_002 44-79): each present truthy value
overwrites the corresponding field; simulation mode is forced only by the
strict comparison with the string true.  All failures are caught inside, so
the method never throws. -/
def loadEnvironmentVariables (st : OzwellState) (env : EnvVars) : OzwellState :=
  let st1 := match env.OZWELL_API_KEY with
    | some k => if k ≠ [] then { st with apiKey := some k } else st
    | none => st
  let st2 := match env.OZWELL_BASE_URL with
    | some u => if u ≠ [] then { st1 with baseUrl := u } else st1
    | none => st1
  let st3 := match env.OZWELL_MODEL with
    | some m => if m ≠ [] then { st2 with model := m } else st2
    | none => st2
  if env.FORCE_SIMULATION_MODE = some (jstr "true") then
    { st3 with useSimulationMode := true }
  else st3

/-- Template returned when no tools context is available (part_002 511-514). -/
def simNeedContext : JSStr :=
  jstr "I need to connect to the medical system first. Let me get the current patient information.\n\nTOOL_CALL: getContext\nPARAMS: \x7b\x7d"

/-- Medication template (part_002 550-553), with the four interpolations. -/
def simMedication (medicationName dose frequency indication : JSStr) : JSStr :=
  jstr "I" ++ sqc ++ jstr "ll add " ++ medicationName ++ jstr " " ++ dose ++
  jstr " to the patient" ++ sqc ++
  jstr "s medication list.\n\nTOOL_CALL: addMedication\nPARAMS: \x7b\"name\": \"" ++
  medicationName ++ jstr "\", \"dose\": \"" ++ dose ++
  jstr "\", \"frequency\": \"" ++ frequency ++
  jstr "\", \"indication\": \"" ++ indication ++ jstr "\"\x7d"

/-- Allergy template (part_002 559-562). -/
def simAllergy : JSStr :=
  jstr "I" ++ sqc ++ jstr "ll help you add an allergy to the patient" ++ sqc ++
  jstr "s profile. Let me first check their current information.\n\nTOOL_CALL: getContext\nPARAMS: \x7b\x7d"

/-- Context template (part_002 569-572). -/
def simContext : JSStr :=
  jstr "I" ++ sqc ++
  jstr "ll retrieve the current patient information for you.\n\nTOOL_CALL: getContext\nPARAMS: \x7b\x7d"

/-- Fallback template (part_002 577-580). -/
def simGeneral : JSStr :=
  jstr "I" ++ sqc ++ jstr "ll help you with that. Let me first check the patient" ++
  sqc ++
  jstr "s current medical information to provide the safest and most appropriate care.\n\nTOOL_CALL: getContext\nPARAMS: \x7b\x7d"

/-- `simulateOzwellAPI` (part_002 501-581).  Reading the last message
content with optional chaining and the or-empty-string default never
throws, the branching is pure string matching on the lowercased last
message, and the system prompt is only logged, so the state beyond
`toolsContext` is irrelevant. -/
def simulateOzwellAPI (toolsContext : Option ToolsContext)
    (messages : List ChatMessage) : JSStr :=
  let lastMessage := (messages.getLast?).elim [] (fun m => m.content)
  let msg := toLowerStr lastMessage
  let hasTools := match toolsContext with
    | none => false
    | some tc => tc.availableTools
  if hasTools = false then simNeedContext
  else if jsIncludes msg (jstr "prescribe") || jsIncludes msg (jstr "add") ||
      jsIncludes msg (jstr "give") ||
      (jsIncludes msg (jstr "dolo") &&
        (jsIncludes msg (jstr "650") || jsIncludes msg (jstr "paracetamol"))) then
    let info :=
      if jsIncludes msg (jstr "dolo") && jsIncludes msg (jstr "650") then
        (jstr "Paracetamol", jstr "650mg", jstr "every 6-8 hours as needed",
         jstr "Pain and fever relief")
      else if jsIncludes msg (jstr "paracetamol") then
        (jstr "Paracetamol",
         if jsIncludes msg (jstr "650") then jstr "650mg" else jstr "500mg",
         jstr "every 6-8 hours as needed", jstr "Pain and fever relief")
      else
        (jstr "Paracetamol", jstr "650mg", jstr "every 6-8 hours as needed",
         jstr "Pain and fever relief")
    simMedication info.1 info.2.1 info.2.2.1 info.2.2.2
  else if jsIncludes msg (jstr "allergy") || jsIncludes msg (jstr "allergic") then
    simAllergy
  else if jsIncludes msg (jstr "context") || jsIncludes msg (jstr "patient") ||
      jsIncludes msg (jstr "information") || jsIncludes msg (jstr "show") ||
      jsIncludes msg (jstr "current") then
    simContext
  else simGeneral

/-- State after the two guard blocks of `generateResponse`
(part_002 117-126): `loadEnvironmentVariables` runs only when no API key is
set; when still keyless, simulation mode is forced. -/
def ozwellPreState (st : OzwellState) (env : EnvVars) : OzwellState :=
  let st1 := if st.apiKey = none then loadEnvironmentVariables st env else st
  if st1.apiKey = none ∧ st1.useSimulationMode = false then
    { st1 with useSimulationMode := true }
  else st1

/-- `generateResponse` (part_002 113-149).  The real API call is the
abstract `apiResult` (only consulted when attempted); its failure falls
back to the simulated text.  The returned Bool records whether
`callOzwellAPI` was attempted. -/
def generateResponse (st : OzwellState) (env : EnvVars)
    (apiResult : Except JSStr JSStr) (messages : List ChatMessage) :
    OzwellState × Bool × Except JSStr JSStr :=
  let st2 := ozwellPreState st env
  if st2.useSimulationMode then
    (st2, false, .ok (simulateOzwellAPI st2.toolsContext messages))
  else
    match apiResult with
    | .ok r => (st2, true, .ok r)
    | .error _ => (st2, true, .ok (simulateOzwellAPI st2.toolsContext messages))

end OzwellIntegration

/-! ### OpenAI tool-call parsing and the parser dispatch (llm-manager.js) -/

/-- One element of `response.tool_calls` in an OpenAI message object, with
`function.arguments` either still a JSON string or already an object. -/
structure OpenAIToolCallObj where
  id : JSValue
  type : JSStr
  functionName : JSStr
  arguments : Sum JSStr JSValue

/-- The value `generateResponse` hands to the parsers: a plain string (the
Ozwell path) or an OpenAI message object. -/
inductive LLMResponseValue where
  | text (s : JSStr)
  | message (content : Option JSStr) (tool_calls : Option (List OpenAIToolCallObj))

/-- Parsed tool calls as produced by either provider-specific parser; the
Ozwell parser attaches no `id`, so reading it yields undefined (`none`). -/
structure ParsedToolCall where
  id : Option JSValue := none
  name : JSStr
  parameters : JSValue
  provider : JSStr

namespace LLMManager

/-- `parseOpenAIToolCalls` (llm-manager.js 440-469): keeps tool calls of
type function; string arguments go through JSON.parse, whose failure is
caught and skips the push. -/
def parseOpenAIToolCalls (jsonParse : JSStr → Option JSValue)
    (response : LLMResponseValue) : List ParsedToolCall :=
  match response with
  | .text _ => []
  | .message _ none => []
  | .message _ (some tcs) =>
    tcs.foldl (fun acc toolCall =>
      if toolCall.type == jstr "function" then
        match toolCall.arguments with
        | .inl s =>
            match jsonParse s with
            | some args =>
                acc ++ [{ id := some toolCall.id,
                          name := toolCall.functionName,
                          parameters := args, provider := jstr "openai" }]
            | none => acc
        | .inr v =>
            acc ++ [{ id := some toolCall.id, name := toolCall.functionName,
                      parameters := v, provider := jstr "openai" }]
      else acc) []

/-- The provider dispatch `parseToolCalls(response, provider)`
(llm-manager.js 427-438); `provider || this.currentProvider`. -/
def parseToolCalls (jsonParse : JSStr → Option JSValue)
    (response : LLMResponseValue) (provider : Option Provider)
    (currentProvider : Option Provider) : List ParsedToolCall :=
  match (match provider with
         | some p => some p
         | none => currentProvider) with
  | some .openai => parseOpenAIToolCalls jsonParse response
  | some .ozwell =>
      (match response with
       | .text s =>
           (parseOzwellToolCalls jsonParse s).map
             (fun tc => { id := none, name := tc.name,
                          parameters := tc.parameters,
                          provider := tc.provider })
       | .message _ _ => [])
  | none => []

end LLMManager

/-! ### MCP client (part_004) -/

namespace MCPClient

/-- The fields of the client that `processMessage` reads or writes. -/
structure MCPState where
  processingMessage : Bool
  requestCounter : Nat

/-- One `window.postMessage` payload of type mcp-execute-tool
(part_004 579-584). -/
structure PostedMessage where
  type : JSStr
  requestId : Nat
  toolName : JSStr
  parameters : JSValue

/-- `executeToolViaMCP` (part_004 564-587): bump the request counter and
post exactly one mcp-execute-tool message. -/
def executeToolViaMCP (st : MCPState) (toolName : JSStr)
    (parameters : JSValue) : MCPState × List PostedMessage :=
  let requestId := st.requestCounter + 1
  ({ st with requestCounter := requestId },
   [{ type := jstr "mcp-execute-tool", requestId := requestId,
      toolName := toolName, parameters := parameters }])

/-- Message of the TypeError thrown by `Object.keys(null)` and
`Object.keys(undefined)`. -/
def keysErrorMsg : JSStr :=
  jstr "TypeError: Cannot convert undefined or null to object"

/-- JS `Object.keys` on our value domain: throws on null and undefined,
yields index strings for arrays and strings, an empty list for the
primitives it boxes. -/
def jsObjectKeys : JSValue → Except JSStr (List JSStr)
  | .null => .error keysErrorMsg
  | .undef => .error keysErrorMsg
  | .obj fields => .ok (fields.map Prod.fst)
  | .arr xs => .ok ((List.range xs.length).map (fun i => jstr (Nat.repr i)))
  | .str s => .ok ((List.range s.length).map (fun i => jstr (Nat.repr i)))
  | .bool _ => .ok []
  | .num _ => .ok []

/-- `processMessage` (part_004 454-562), projected onto its
mcp-execute-tool postMessages.  A non-empty tool-call list leads to
`executeToolViaMCP(toolCalls[0], ...)`; with two or more calls the
system-message summary first computes `Object.keys` of every element, and
a TypeError there escapes to the catch, whose message matches neither
guard, so the getContext fallback fires.  In the singleton branch
`JSON.stringify` cannot throw on this value domain.  LLM errors whose
message contains the two configuration phrases only add chat messages. -/
def processMessage (st : MCPState)
    (currentProvider : Option LLMManager.Provider)
    (jsonParse : JSStr → Option JSValue)
    (llmOutcome : Except (LLMManager.LLMError ⊕ JSStr) LLMResponseValue) :
    MCPState × List PostedMessage :=
  if st.processingMessage then (st, [])
  else
    match currentProvider with
    | none => (st, [])
    | some p =>
      match llmOutcome with
      | .error e =>
        let m := LLMManager.thrownMessage e
        if jsIncludes m (jstr "No LLM provider selected") then (st, [])
        else if jsIncludes m (jstr "not configured") then (st, [])
        else executeToolViaMCP st (jstr "getContext") (JSValue.obj [])
      | .ok llmResponse =>
        let toolCalls :=
          LLMManager.parseToolCalls jsonParse llmResponse (some p) (some p)
        match toolCalls with
        | [] => (st, [])
        | tc :: rest =>
          if rest.isEmpty then executeToolViaMCP st tc.name tc.parameters
          else
            match (tc :: rest).mapM (fun t => jsObjectKeys t.parameters) with
            | .ok _ => executeToolViaMCP st tc.name tc.parameters
            | .error e2 =>
              if jsIncludes e2 (jstr "No LLM provider selected") then (st, [])
              else if jsIncludes e2 (jstr "not configured") then (st, [])
              else executeToolViaMCP st (jstr "getContext") (JSValue.obj [])

/-- Keyword lists of `isMedicationRequest` (part_004 954-956). -/
def addKeywords : List JSStr :=
  [jstr "add", jstr "prescribe", jstr "start", jstr "give", jstr "put on",
   jstr "begin", jstr "initiate"]

def medicationKeywords : List JSStr :=
  [jstr "medication", jstr "med", jstr "drug", jstr "prescription",
   jstr "pill", jstr "tablet", jstr "capsule"]

def specificMeds : List JSStr :=
  [jstr "aspirin", jstr "tylenol", jstr "ibuprofen", jstr "acetaminophen",
   jstr "paracetamol", jstr "lisinopril", jstr "metformin"]

/-- The alternatives of the group in the dose regex, lowercased (the regex
carries the i flag); units? contributes both unit and units. -/
def doseUnits : List JSStr :=
  [jstr "mg", jstr "mcg", jstr "g", jstr "ml", jstr "cc", jstr "unit",
   jstr "units"]

/-- One anchored match attempt of the regex at the start of `t`: some split
of `t` into one-or-more digits, then whitespace, then a unit alternative
(case-insensitively).  Enumerating every split point is exactly the
backtracking semantics of the regex. -/
def doseMatchAt (t : JSStr) : Bool :=
  (List.range (t.length + 1)).any (fun i =>
    (List.range (t.length + 1)).any (fun j =>
      let d := t.take i
      let afterDigits := t.drop i
      let w := afterDigits.take j
      let rest := afterDigits.drop j
      !d.isEmpty && d.all Char.isDigit && w.all isJsWs &&
        doseUnits.any (fun u => strStarts (rest.map Char.toLower) u)))

/-- The unanchored test of the dose regex (part_004 961): a match may start
at any position. -/
def dosePatternTest (s : JSStr) : Bool := s.tails.any doseMatchAt

/-- `isMedicationRequest` (part_004 953-964). -/
def isMedicationRequest (msg : JSStr) : Bool :=
  let hasAddKeyword := addKeywords.any (fun keyword => jsIncludes msg keyword)
  let hasMedicationKeyword :=
    medicationKeywords.any (fun keyword => jsIncludes msg keyword) ||
    specificMeds.any (fun med => jsIncludes msg med)
  let hasDosePattern := dosePatternTest msg
  (hasAddKeyword && hasMedicationKeyword) || hasDosePattern

end MCPClient

/-- Semantic reading of the dose regex, as the claim states it: somewhere
in the message there are one or more digits, then optional whitespace, then
one of the unit alternatives, case-insensitively. -/
def DoseRegexSem (s : JSStr) : Prop :=
  ∃ a d w u r : JSStr, s = a ++ (d ++ (w ++ (u ++ r))) ∧ d ≠ [] ∧
    (∀ c ∈ d, c.isDigit = true) ∧ (∀ c ∈ w, isJsWs c = true) ∧
    toLowerStr u ∈ MCPClient.doseUnits

/-! ### Theorems -/

theorem strStarts_iff (s p : JSStr) : strStarts s p = true ↔ p <+: s := by
  induction p generalizing s with
  | nil => simp [strStarts]
  | cons c cs ih =>
    cases s with
    | nil => simp [strStarts]
    | cons d ds =>
      simp only [strStarts, Bool.and_eq_true, decide_eq_true_eq,
        List.cons_prefix_cons, ih]
      exact ⟨fun ⟨h1, h2⟩ => ⟨h1.symm, h2⟩, fun ⟨h1, h2⟩ => ⟨h1.symm, h2⟩⟩

theorem jsIncludes_iff (s pat : JSStr) : jsIncludes s pat = true ↔ pat <:+: s := by
  simp only [jsIncludes, List.any_eq_true, List.mem_tails,
    List.infix_iff_prefix_suffix, strStarts_iff]
  exact ⟨fun ⟨t, h1, h2⟩ => ⟨t, h2, h1⟩, fun ⟨t, h1, h2⟩ => ⟨t, h2, h1⟩⟩

theorem replaceFirst_starts (pat s : JSStr) (h : strStarts s pat = true) :
    replaceFirst pat [] s = s.drop pat.length := by
  cases s with
  | nil =>
    cases pat with
    | nil => simp [replaceFirst, strStarts]
    | cons p ps => simp [strStarts] at h
  | cons c rest => simp [replaceFirst, h]

/-- The loop body rewritten through the per-line classifiers. -/
theorem ozwellLineStep_eq (jsonParse : JSStr → Option JSValue)
    (a : Option JSStr) (b : JSValue) (l : JSStr) :
    ozwellLineStep jsonParse (a, b) l =
      ((toolNameOfLine l).elim a some,
       (paramsOfLine jsonParse l).elim b id) := by
  unfold ozwellLineStep toolNameOfLine paramsOfLine
  by_cases h1 : strStarts (jsTrim l) toolCallTag
  · simp [h1, replaceFirst_starts _ _ h1]
  · by_cases h2 : strStarts (jsTrim l) paramsTag
    · simp [h1, h2, replaceFirst_starts _ _ h2]
    · simp [h1, h2]

/-- Folding helper: `Option.elim` over the last element of a cons. -/
theorem getLast?_cons_elim {α β : Type} (x : α) (xs : List α) (a : β)
    (f : α → β) :
    ((x :: xs).getLast?).elim a f = (xs.getLast?).elim (f x) f := by
  induction xs with
  | nil => rfl
  | cons y ys _ =>
    rw [List.getLast?_cons_cons]
    cases hg : (y :: ys).getLast? with
    | none => simp at hg
    | some m => simp [hg]

theorem foldl_ozwellLineStep (jsonParse : JSStr → Option JSValue)
    (lines : List JSStr) :
    ∀ (a : Option JSStr) (b : JSValue),
    lines.foldl (ozwellLineStep jsonParse) (a, b) =
      (((lines.filterMap toolNameOfLine).getLast?).elim a some,
       ((lines.filterMap (paramsOfLine jsonParse)).getLast?).elim b id) := by
  induction lines with
  | nil => intro a b; simp
  | cons l ls ih =>
    intro a b
    rw [List.foldl_cons, ozwellLineStep_eq, ih]
    simp only [Prod.mk.injEq]
    refine ⟨?_, ?_⟩
    · cases h : toolNameOfLine l with
      | none => rw [List.filterMap_cons_none h]; simp [h]
      | some n =>
        rw [List.filterMap_cons_some h, getLast?_cons_elim]
        simp [h]
    · cases h : paramsOfLine jsonParse l with
      | none => rw [List.filterMap_cons_none h]; simp [h]
      | some v =>
        rw [List.filterMap_cons_some h, getLast?_cons_elim]
        simp [h]

/-- Claim C1 (amended): for every string s and every behaviour of JSON.parse,
both heuristic parsers return a singleton exactly when some line of s, after
trimming, starts with TOOL_CALL: and the trimmed text following TOOL_CALL: on
the last such line is nonempty (JS truthiness makes the empty name fall
through).  The singleton name is that trimmed text; the parameters come from
the last PARAMS: line — its trimmed remainder parsed as JSON, or that
remainder stripped of double quotes when parsing fails — and are null when no
PARAMS: line exists. -/
theorem claim_C1 (jsonParse : JSStr → Option JSValue) (s : JSStr) :
    LLMManager.parseOzwellToolCalls jsonParse s =
      (match lastToolName s with
       | some name =>
           if name ≠ [] then [⟨name, lastParams jsonParse s, jstr "ozwell"⟩]
           else []
       | none => []) ∧
    OzwellIntegration.parseToolCalls jsonParse s =
      (match lastToolName s with
       | some name => if name ≠ [] then [⟨name, lastParams jsonParse s⟩] else []
       | none => []) := by
  refine ⟨?_, ?_⟩ <;>
  · simp only [LLMManager.parseOzwellToolCalls,
      OzwellIntegration.parseToolCalls, foldl_ozwellLineStep, lastToolName,
      lastParams]
    cases h : ((splitOnChar '\n' s).filterMap toolNameOfLine).getLast? with
    | none => simp [h]
    | some n =>
      cases hp :
          ((splitOnChar '\n' s).filterMap (paramsOfLine jsonParse)).getLast? <;>
        simp [h, hp]

/-- Claim C1 counterexample: on the response consisting of the single line
TOOL_CALL: (empty tool name), some trimmed line does start with TOOL_CALL:,
yet both parsers return the empty list rather than a singleton. -/
theorem claim_C1_counterexample :
    ((splitOnChar '\n' (jstr "TOOL_CALL:")).any
        (fun l => strStarts (jsTrim l) toolCallTag)) = true ∧
    LLMManager.parseOzwellToolCalls (fun _ => none) (jstr "TOOL_CALL:") = [] ∧
    OzwellIntegration.parseToolCalls (fun _ => none) (jstr "TOOL_CALL:") = [] :=
  ⟨rfl, rfl, rfl⟩

/-- Claim C10: resetToDemo always throws a TypeError (the class constructor
is invoked without new): it removes the medicalData localStorage entry,
leaves every other storage key and the in-memory patient record unchanged,
and never returns its success object. -/
theorem claim_C10 (storage : Storage) (pd : MedicalDataManager.PatientData) :
    (∃ e, (MedicalDataManager.resetToDemo storage pd).2.2 = Except.error e ∧
       strStarts e (jstr "TypeError") = true) ∧
    (MedicalDataManager.resetToDemo storage pd).1 (jstr "medicalData") = none ∧
    (∀ k, k ≠ jstr "medicalData" →
      (MedicalDataManager.resetToDemo storage pd).1 k = storage k) ∧
    (MedicalDataManager.resetToDemo storage pd).2.1 = pd ∧
    (∀ r, (MedicalDataManager.resetToDemo storage pd).2.2 ≠ Except.ok r) := by
  refine ⟨⟨_, rfl, by decide⟩, ?_, ?_, rfl, ?_⟩
  · simp [MedicalDataManager.resetToDemo, MedicalDataManager.constructorPlainCall,
      removeItem]
  · intro k hk
    simp only [MedicalDataManager.resetToDemo,
      MedicalDataManager.constructorPlainCall, removeItem]
    rw [if_neg hk]
  · intro r h
    simp [MedicalDataManager.resetToDemo,
      MedicalDataManager.constructorPlainCall] at h

/-- Claim C10 witness at a concrete storage and patient record. -/
theorem claim_C10_witness :
    (MedicalDataManager.resetToDemo (fun _ => some (jstr "x"))
        MedicalDataManager.demoPatientData).2.1 =
      MedicalDataManager.demoPatientData ∧
    (MedicalDataManager.resetToDemo (fun _ => some (jstr "x"))
        MedicalDataManager.demoPatientData).1 (jstr "other") =
      some (jstr "x") := by
  have h := claim_C10 (fun _ => some (jstr "x"))
    MedicalDataManager.demoPatientData
  exact ⟨h.2.2.2.1, h.2.2.1 (jstr "other") (by decide)⟩

/-- Claim C3: addMedication fails exactly when an active medication with the
same lowercased name already exists; on failure the record is untouched, on
success exactly the new active medication (named as the input) is appended
and nothing else in the record changes. -/
theorem claim_C3 (genId today nowIso : JSStr)
    (pd : MedicalDataManager.PatientData)
    (input : MedicalDataManager.MedicationInput) :
    ((∃ e, (MedicalDataManager.addMedication genId today nowIso pd input).2 =
        .err e) ↔
      ∃ med ∈ pd.medications, med.status = jstr "active" ∧
        toLowerStr med.name = toLowerStr input.name) ∧
    ((∃ e, (MedicalDataManager.addMedication genId today nowIso pd input).2 =
        .err e) →
      (MedicalDataManager.addMedication genId today nowIso pd input).1 = pd) ∧
    (∀ med msg warns,
      (MedicalDataManager.addMedication genId today nowIso pd input).2 =
        .ok med msg warns →
      (MedicalDataManager.addMedication genId today nowIso pd input).1.medications =
        pd.medications ++ [med] ∧
      med.status = jstr "active" ∧ med.name = input.name ∧
      (MedicalDataManager.addMedication genId today nowIso pd input).1.allergies =
        pd.allergies ∧
      (MedicalDataManager.addMedication genId today nowIso pd input).1.conditions =
        pd.conditions ∧
      (MedicalDataManager.addMedication genId today nowIso pd input).1.vitals =
        pd.vitals ∧
      (MedicalDataManager.addMedication genId today nowIso pd input).1.patientInfo =
        pd.patientInfo) := by
  simp only [MedicalDataManager.addMedication]
  cases hfind : pd.medications.find? (fun med =>
      (toLowerStr med.name == toLowerStr input.name) &&
      (med.status == jstr "active")) with
  | some m =>
    simp only [hfind]
    have hmem := List.mem_of_find?_eq_some hfind
    have hpred := List.find?_some hfind
    simp only [Bool.and_eq_true, beq_iff_eq] at hpred
    refine ⟨⟨fun _ => ⟨m, hmem, hpred.2, hpred.1⟩, fun _ => ⟨_, rfl⟩⟩,
      fun _ => by first | rfl | trivial, ?_⟩
    intro med msg warns h
    exact (MedicalDataManager.AddMedicationResult.noConfusion h)
  | none =>
    simp only [hfind]
    have hnone := List.find?_eq_none.mp hfind
    refine ⟨⟨?_, ?_⟩, ?_, ?_⟩
    · rintro ⟨e, he⟩
      exact (MedicalDataManager.AddMedicationResult.noConfusion he)
    · rintro ⟨med, hmem, hstat, hname⟩
      have := hnone med hmem
      simp only [Bool.and_eq_true, beq_iff_eq] at this
      exact absurd ⟨hname, hstat⟩ this
    · rintro ⟨e, he⟩
      exact (MedicalDataManager.AddMedicationResult.noConfusion he)
    · intro med msg warns h
      injection h with h1 h2 h3
      subst h1
      simp

/-- Claim C3 witness: adding Lisinopril to the demo record (which already
holds it actively) fails and leaves the record unchanged, while adding
Naproxen succeeds and appends exactly one active medication. -/
theorem claim_C3_witness :
    ((MedicalDataManager.addMedication (jstr "m") (jstr "d") (jstr "t")
        MedicalDataManager.demoPatientData
        { name := jstr "Lisinopril" }).1 =
      MedicalDataManager.demoPatientData) ∧
    ∃ med,
      (MedicalDataManager.addMedication (jstr "m") (jstr "d") (jstr "t")
          MedicalDataManager.demoPatientData
          { name := jstr "Naproxen" }).1.medications =
        MedicalDataManager.demoPatientData.medications ++ [med] ∧
      med.status = jstr "active" ∧ med.name = jstr "Naproxen" := by
  have h1 := claim_C3 (jstr "m") (jstr "d") (jstr "t")
    MedicalDataManager.demoPatientData { name := jstr "Lisinopril" }
  have h2 := claim_C3 (jstr "m") (jstr "d") (jstr "t")
    MedicalDataManager.demoPatientData { name := jstr "Naproxen" }
  refine ⟨h1.2.1 ⟨_, rfl⟩, _, (h2.2.2 _ _ _ rfl).1, (h2.2.2 _ _ _ rfl).2.1,
    (h2.2.2 _ _ _ rfl).2.2.1⟩

/-- Claim C8: a recorded allergy never blocks adding a matching medication:
when no active duplicate exists and checkAllergies flags the new name, the
add still succeeds, the medication is appended, and the conflict shows up
only as the single ALLERGY WARNING entry of the warnings list. -/
theorem claim_C8 (genId today nowIso : JSStr)
    (pd : MedicalDataManager.PatientData)
    (input : MedicalDataManager.MedicationInput)
    (hdup : ∀ med ∈ pd.medications,
      ¬(med.status = jstr "active" ∧
        toLowerStr med.name = toLowerStr input.name))
    (hall : (MedicalDataManager.checkAllergies pd input.name).hasAllergy = true) :
    ∃ med msg,
      (MedicalDataManager.addMedication genId today nowIso pd input).2 =
        .ok med msg
          [jstr "ALLERGY WARNING: Patient allergic to " ++
            ((MedicalDataManager.checkAllergies pd input.name).allergen.getD [])] ∧
      (MedicalDataManager.addMedication genId today nowIso pd input).1.medications =
        pd.medications ++ [med] := by
  have hfind : pd.medications.find? (fun med =>
      (toLowerStr med.name == toLowerStr input.name) &&
      (med.status == jstr "active")) = none := by
    rw [List.find?_eq_none]
    intro med hmem
    simp only [Bool.and_eq_true, beq_iff_eq]
    intro ⟨hname, hstat⟩
    exact hdup med hmem ⟨hstat, hname⟩
  simp only [MedicalDataManager.addMedication, hfind, hall, if_true]
  exact ⟨_, _, rfl, rfl⟩

/-- Claim C8 witness: Amoxicillin conflicts with the demo Penicillin allergy
through the drug-class table, yet is added successfully with one warning. -/
theorem claim_C8_witness :
    ∃ med msg,
      (MedicalDataManager.addMedication (jstr "m") (jstr "d") (jstr "t")
          MedicalDataManager.demoPatientData
          { name := jstr "Amoxicillin" }).2 =
        .ok med msg
          [jstr "ALLERGY WARNING: Patient allergic to " ++
            ((MedicalDataManager.checkAllergies MedicalDataManager.demoPatientData
                (MedicalDataManager.MedicationInput.name
                  { name := jstr "Amoxicillin" })).allergen.getD [])] ∧
      (MedicalDataManager.addMedication (jstr "m") (jstr "d") (jstr "t")
          MedicalDataManager.demoPatientData
          { name := jstr "Amoxicillin" }).1.medications =
        MedicalDataManager.demoPatientData.medications ++ [med] :=
  claim_C8 (jstr "m") (jstr "d") (jstr "t")
    MedicalDataManager.demoPatientData { name := jstr "Amoxicillin" }
    (by decide) (by decide)

theorem discontinueInList_length (today : JSStr)
    (p : MedicalDataManager.Medication → Bool)
    (l : List MedicalDataManager.Medication) :
    (MedicalDataManager.discontinueInList today p l).1.length = l.length := by
  induction l with
  | nil => rfl
  | cons m rest ih =>
    by_cases h : p m <;>
      simp [MedicalDataManager.discontinueInList, h, ih]

theorem discontinueInList_none (today : JSStr)
    (p : MedicalDataManager.Medication → Bool)
    (l : List MedicalDataManager.Medication)
    (h : (MedicalDataManager.discontinueInList today p l).2 = none) :
    (MedicalDataManager.discontinueInList today p l).1 = l ∧
    ∀ m ∈ l, p m = false := by
  induction l with
  | nil => exact ⟨rfl, by simp⟩
  | cons m rest ih =>
    by_cases hp : p m
    · simp [MedicalDataManager.discontinueInList, hp] at h
    · rw [show MedicalDataManager.discontinueInList today p (m :: rest) =
          (m :: (MedicalDataManager.discontinueInList today p rest).1,
           (MedicalDataManager.discontinueInList today p rest).2) from by
            simp [MedicalDataManager.discontinueInList, hp]] at h ⊢
      obtain ⟨h1, h2⟩ := ih h
      refine ⟨by simp [h1], ?_⟩
      intro x hx
      rcases List.mem_cons.mp hx with rfl | hx
      · simpa using hp
      · exact h2 x hx

theorem discontinueInList_some (today : JSStr)
    (p : MedicalDataManager.Medication → Bool)
    (l : List MedicalDataManager.Medication)
    (med : MedicalDataManager.Medication)
    (h : (MedicalDataManager.discontinueInList today p l).2 = some med) :
    p med = true ∧
    ∃ i, l[i]? = some med ∧
      (MedicalDataManager.discontinueInList today p l).1 =
        l.take i ++ MedicalDataManager.discontinueUpdate today med ::
          l.drop (i + 1) := by
  induction l with
  | nil => simp [MedicalDataManager.discontinueInList] at h
  | cons m rest ih =>
    by_cases hp : p m
    · rw [show MedicalDataManager.discontinueInList today p (m :: rest) =
          (MedicalDataManager.discontinueUpdate today m :: rest, some m) from by
            simp [MedicalDataManager.discontinueInList, hp]] at h ⊢
      injection h with h1
      subst h1
      exact ⟨hp, 0, by simp, by simp⟩
    · rw [show MedicalDataManager.discontinueInList today p (m :: rest) =
          (m :: (MedicalDataManager.discontinueInList today p rest).1,
           (MedicalDataManager.discontinueInList today p rest).2) from by
            simp [MedicalDataManager.discontinueInList, hp]] at h ⊢
      obtain ⟨hmed, i, hi, heq⟩ := ih h
      exact ⟨hmed, i + 1, by simpa using hi, by simp [heq]⟩

theorem discontinueInList_all_false (today : JSStr)
    (p : MedicalDataManager.Medication → Bool)
    (l : List MedicalDataManager.Medication)
    (h : ∀ m ∈ l, p m = false) :
    MedicalDataManager.discontinueInList today p l = (l, none) := by
  induction l with
  | nil => rfl
  | cons m rest ih =>
    have hm : p m = false := h m (List.mem_cons_self m rest)
    have hrest := ih (fun x hx => h x (List.mem_cons_of_mem m hx))
    simp [MedicalDataManager.discontinueInList, hm, hrest]

/-- Claim C9: discontinueMedication never deletes an entry: the medications
array keeps its length and the other record fields are untouched; when no
active medication matches the exact id or the case-insensitive name the call
fails with the record unchanged; on success the first matched medication is
replaced in place by its discontinued version and every other entry is kept
verbatim. -/
theorem claim_C9 (today : JSStr) (pd : MedicalDataManager.PatientData)
    (medId : JSStr) :
    (MedicalDataManager.discontinueMedication today pd medId).1.medications.length =
      pd.medications.length ∧
    (MedicalDataManager.discontinueMedication today pd medId).1.allergies =
      pd.allergies ∧
    (MedicalDataManager.discontinueMedication today pd medId).1.conditions =
      pd.conditions ∧
    (MedicalDataManager.discontinueMedication today pd medId).1.vitals =
      pd.vitals ∧
    (MedicalDataManager.discontinueMedication today pd medId).1.patientInfo =
      pd.patientInfo ∧
    ((∀ med ∈ pd.medications,
        ¬(med.status = jstr "active" ∧
          (med.id = medId ∨ toLowerStr med.name = toLowerStr medId))) →
      (∃ e, (MedicalDataManager.discontinueMedication today pd medId).2 = .err e) ∧
      (MedicalDataManager.discontinueMedication today pd medId).1 = pd) ∧
    (∀ i n d f msg,
      (MedicalDataManager.discontinueMedication today pd medId).2 =
        .ok i n d f msg →
      ∃ j med, pd.medications[j]? = some med ∧
        (MedicalDataManager.discontinueMedication today pd medId).1.medications =
          pd.medications.take j ++
            MedicalDataManager.discontinueUpdate today med ::
              pd.medications.drop (j + 1)) := by
  simp only [MedicalDataManager.discontinueMedication]
  cases h1 : (MedicalDataManager.discontinueInList today
      (fun med => (med.id == medId) && (med.status == jstr "active"))
      pd.medications).2 with
  | some med =>
    obtain ⟨hmed, i, hi, heq⟩ := discontinueInList_some today _ _ med h1
    simp only [h1, heq]
    refine ⟨?_, by trivial, by trivial, by trivial, by trivial, ?_, ?_⟩
    · rw [← heq, discontinueInList_length]
    · intro hno
      exfalso
      have hmem : med ∈ pd.medications := by
        have := List.getElem?_eq_some_iff.mp hi
        obtain ⟨hlt, hget⟩ := this
        exact hget ▸ List.getElem_mem hlt
      rw [Bool.and_eq_true, beq_iff_eq, beq_iff_eq] at hmed
      exact hno med hmem ⟨hmed.2, Or.inl hmed.1⟩
    · intro a b c dd e h
      exact ⟨i, med, hi, rfl⟩
  | none =>
    have hr1 := discontinueInList_none today _ _ h1
    cases h2 : (MedicalDataManager.discontinueInList today
        (fun med => (toLowerStr med.name == toLowerStr medId) &&
          (med.status == jstr "active")) pd.medications).2 with
    | some med =>
      obtain ⟨hmed, i, hi, heq⟩ := discontinueInList_some today _ _ med h2
      simp only [h1, h2, heq]
      refine ⟨?_, by trivial, by trivial, by trivial, by trivial, ?_, ?_⟩
      · rw [← heq, discontinueInList_length]
      · intro hno
        exfalso
        have hmem : med ∈ pd.medications := by
          have := List.getElem?_eq_some_iff.mp hi
          obtain ⟨hlt, hget⟩ := this
          exact hget ▸ List.getElem_mem hlt
        rw [Bool.and_eq_true, beq_iff_eq, beq_iff_eq] at hmed
        exact hno med hmem ⟨hmed.2, Or.inr hmed.1⟩
      · intro a b c dd e h
        exact ⟨i, med, hi, rfl⟩
    | none =>
      simp only [h1, h2]
      refine ⟨by trivial, by trivial, by trivial, by trivial, by trivial,
        fun _ => ⟨⟨_, rfl⟩, by trivial⟩, ?_⟩
      intro a b c dd e h
      exact (MedicalDataManager.DiscontinueResult.noConfusion h)

/-- Claim C9 witness: on the demo record, discontinuing metformin by its
lowercased name succeeds and rewrites exactly the second entry, while a
fantasy drug fails and leaves the record unchanged. -/
theorem claim_C9_witness :
    (∃ j med, MedicalDataManager.demoPatientData.medications[j]? = some med ∧
      (MedicalDataManager.discontinueMedication (jstr "2025-01-01")
          MedicalDataManager.demoPatientData (jstr "metformin")).1.medications =
        MedicalDataManager.demoPatientData.medications.take j ++
          MedicalDataManager.discontinueUpdate (jstr "2025-01-01") med ::
            MedicalDataManager.demoPatientData.medications.drop (j + 1)) ∧
    (MedicalDataManager.discontinueMedication (jstr "2025-01-01")
        MedicalDataManager.demoPatientData (jstr "nothere")).1 =
      MedicalDataManager.demoPatientData := by
  have h1 := claim_C9 (jstr "2025-01-01") MedicalDataManager.demoPatientData
    (jstr "metformin")
  have h2 := claim_C9 (jstr "2025-01-01") MedicalDataManager.demoPatientData
    (jstr "nothere")
  refine ⟨h1.2.2.2.2.2.2 _ _ _ _ _ rfl, (h2.2.2.2.2.2.1 (by decide)).2⟩

theorem getItem_setItem_same (s : Storage) (k v : JSStr) :
    getItem (setItem s k v) k = some v := by
  simp [getItem, setItem]

theorem getItem_setItem_other (s : Storage) (k v q : JSStr) (h : q ≠ k) :
    getItem (setItem s k v) q = s q := by
  simp [getItem, setItem, h]

theorem loadOzwellConfig_openai (storage : Storage) (st : LLMManager.LLMState) :
    (LLMManager.loadOzwellConfig storage st).openai = st.openai := by
  unfold LLMManager.loadOzwellConfig
  repeat' split
  all_goals rfl

theorem loadOpenAIConfig_ozwell (storage : Storage) (st : LLMManager.LLMState) :
    (LLMManager.loadOpenAIConfig storage st).ozwell = st.ozwell := by
  unfold LLMManager.loadOpenAIConfig
  repeat' split
  all_goals rfl

theorem loadCurrentProvider_openai (storage : Storage) (st : LLMManager.LLMState) :
    (LLMManager.loadCurrentProvider storage st).openai = st.openai := by
  unfold LLMManager.loadCurrentProvider
  repeat' split
  all_goals rfl

theorem loadCurrentProvider_ozwell (storage : Storage) (st : LLMManager.LLMState) :
    (LLMManager.loadCurrentProvider storage st).ozwell = st.ozwell := by
  unfold LLMManager.loadCurrentProvider
  repeat' split
  all_goals rfl

theorem save_storage_api_key (p : LLMManager.Provider)
    (config : LLMManager.LLMConfig) (storage : Storage)
    (st : LLMManager.LLMState) :
    getItem (LLMManager.saveConfiguration p config storage st).1
      (LLMManager.providerKey p ++ jstr "_api_key") = some config.apiKey := by
  cases p <;> rcases hb : config.baseUrl with _ | u <;>
    simp +decide [LLMManager.saveConfiguration, hb, getItem, setItem,
      ite_apply] <;>
    split <;> simp +decide [setItem]

theorem save_storage_model (p : LLMManager.Provider)
    (config : LLMManager.LLMConfig) (storage : Storage)
    (st : LLMManager.LLMState) :
    getItem (LLMManager.saveConfiguration p config storage st).1
      (LLMManager.providerKey p ++ jstr "_model") = some config.model := by
  cases p <;> rcases hb : config.baseUrl with _ | u <;>
    simp +decide [LLMManager.saveConfiguration, hb, getItem, setItem,
      ite_apply] <;>
    split <;> simp +decide [setItem]

theorem loadOpenAIConfig_fields (storage : Storage) (st : LLMManager.LLMState)
    (k m : JSStr)
    (hk : getItem storage (jstr "openai_api_key") = some k) (hknil : k ≠ [])
    (hm : getItem storage (jstr "openai_model") = some m) (hmnil : m ≠ []) :
    (LLMManager.loadOpenAIConfig storage st).openai.configured = true ∧
    (LLMManager.loadOpenAIConfig storage st).openai.apiKey = some k ∧
    (LLMManager.loadOpenAIConfig storage st).openai.model = m := by
  simp only [LLMManager.loadOpenAIConfig, hk, hm]
  simp [hknil, hmnil]

theorem loadOzwellConfig_fields (storage : Storage) (st : LLMManager.LLMState)
    (k m : JSStr)
    (hk : getItem storage (jstr "ozwell_api_key") = some k) (hknil : k ≠ [])
    (hm : getItem storage (jstr "ozwell_model") = some m) (hmnil : m ≠ []) :
    (LLMManager.loadOzwellConfig storage st).ozwell.configured = true ∧
    (LLMManager.loadOzwellConfig storage st).ozwell.apiKey = some k ∧
    (LLMManager.loadOzwellConfig storage st).ozwell.model = m := by
  simp only [LLMManager.loadOzwellConfig, hk, hm]
  cases hu : getItem storage (jstr "ozwell_api_url") with
  | none => simp [hknil, hmnil, hu]
  | some u => by_cases hun : u ≠ [] <;> simp [hknil, hmnil, hu, hun]

/-- Claim C5 (amended): settings round-trip through localStorage for every
known provider and every configuration whose apiKey AND model are both
non-empty: after saveConfiguration, a freshly constructed manager reading
the same storage reports the provider configured and stores the saved
apiKey and model.  (An empty model is falsy on load and silently keeps the
default, which is what the counterexample exhibits.) -/
theorem claim_C5 (storage : Storage) (st : LLMManager.LLMState)
    (p : LLMManager.Provider) (config : LLMManager.LLMConfig)
    (hk : config.apiKey ≠ []) (hm : config.model ≠ []) :
    LLMManager.isProviderConfigured
      (LLMManager.freshManager
        (LLMManager.saveConfiguration p config storage st).1) p = true ∧
    ((LLMManager.freshManager
        (LLMManager.saveConfiguration p config storage st).1).provider p).apiKey =
      some config.apiKey ∧
    ((LLMManager.freshManager
        (LLMManager.saveConfiguration p config storage st).1).provider p).model =
      config.model := by
  have hak := save_storage_api_key p config storage st
  have hmo := save_storage_model p config storage st
  cases p with
  | openai =>
    rw [show LLMManager.providerKey LLMManager.Provider.openai ++
        jstr "_api_key" = jstr "openai_api_key" from rfl] at hak
    rw [show LLMManager.providerKey LLMManager.Provider.openai ++
        jstr "_model" = jstr "openai_model" from rfl] at hmo
    have hfields := loadOpenAIConfig_fields
      (LLMManager.saveConfiguration .openai config storage st).1
      LLMManager.defaultState config.apiKey config.model hak hk hmo hm
    simp only [LLMManager.freshManager, LLMManager.loadSavedConfigurations,
      LLMManager.isProviderConfigured, LLMManager.LLMState.provider,
      loadCurrentProvider_openai, loadOzwellConfig_openai]
    exact hfields
  | ozwell =>
    rw [show LLMManager.providerKey LLMManager.Provider.ozwell ++
        jstr "_api_key" = jstr "ozwell_api_key" from rfl] at hak
    rw [show LLMManager.providerKey LLMManager.Provider.ozwell ++
        jstr "_model" = jstr "ozwell_model" from rfl] at hmo
    have hfields := loadOzwellConfig_fields
      (LLMManager.saveConfiguration .ozwell config storage st).1
      (LLMManager.loadOpenAIConfig
        (LLMManager.saveConfiguration .ozwell config storage st).1
        LLMManager.defaultState)
      config.apiKey config.model hak hk hmo hm
    simp only [LLMManager.freshManager, LLMManager.loadSavedConfigurations,
      LLMManager.isProviderConfigured, LLMManager.LLMState.provider,
      loadCurrentProvider_ozwell]
    exact hfields

/-- Claim C5 counterexample: saving the openai provider with the non-empty
API key k and the empty model yields a fresh manager whose stored model is
the default gpt-3.5-turbo rather than the saved empty string (the empty
string is falsy on load), refuting the claim for configurations that only
constrain the apiKey. -/
theorem claim_C5_counterexample :
    (jstr "k" ≠ []) ∧
    LLMManager.isProviderConfigured
      (LLMManager.freshManager
        (LLMManager.saveConfiguration .openai
          { apiKey := jstr "k", model := [] } emptyStorage
          LLMManager.defaultState).1) .openai = true ∧
    ((LLMManager.freshManager
        (LLMManager.saveConfiguration .openai
          { apiKey := jstr "k", model := [] } emptyStorage
          LLMManager.defaultState).1).provider .openai).model =
      jstr "gpt-3.5-turbo" ∧
    jstr "gpt-3.5-turbo" ≠ ([] : JSStr) :=
  ⟨by decide, by decide, by decide, by decide⟩

/-- Claim C5 witness at a concrete provider and configuration. -/
theorem claim_C5_witness :
    LLMManager.isProviderConfigured
      (LLMManager.freshManager
        (LLMManager.saveConfiguration .ozwell
          { apiKey := jstr "BHSK-1", model := jstr "ozwell-medical-v2" }
          emptyStorage LLMManager.defaultState).1) .ozwell = true ∧
    ((LLMManager.freshManager
        (LLMManager.saveConfiguration .ozwell
          { apiKey := jstr "BHSK-1", model := jstr "ozwell-medical-v2" }
          emptyStorage LLMManager.defaultState).1).provider .ozwell).apiKey =
      some (jstr "BHSK-1") ∧
    ((LLMManager.freshManager
        (LLMManager.saveConfiguration .ozwell
          { apiKey := jstr "BHSK-1", model := jstr "ozwell-medical-v2" }
          emptyStorage LLMManager.defaultState).1).provider .ozwell).model =
      jstr "ozwell-medical-v2" :=
  claim_C5 emptyStorage LLMManager.defaultState .ozwell
    { apiKey := jstr "BHSK-1", model := jstr "ozwell-medical-v2" }
    (by decide) (by decide)

/-- Claim C6: generateResponse throws No LLM provider selected exactly when
no provider is selected, and Provider p is not configured exactly when the
selected provider is unconfigured; in both error cases no HTTP request is
issued, and the provider state is never changed. -/
theorem claim_C6 (st : LLMManager.LLMState) (messages : List ChatMessage)
    (fetchResult : LLMManager.HttpRequest → Except JSStr JSStr) :
    ((LLMManager.generateResponse st messages fetchResult).2.2 =
        .error (.inl .noProvider) ↔ st.currentProvider = none) ∧
    (∀ p, st.currentProvider = some p →
      ((LLMManager.generateResponse st messages fetchResult).2.2 =
          .error (.inl (.notConfigured p)) ↔
        (st.provider p).configured = false)) ∧
    (∀ e, (LLMManager.generateResponse st messages fetchResult).2.2 =
        .error (.inl e) →
      (LLMManager.generateResponse st messages fetchResult).2.1 = []) ∧
    (LLMManager.generateResponse st messages fetchResult).1 = st := by
  cases hc : st.currentProvider with
  | none =>
    refine ⟨?_, ?_, ?_, ?_⟩ <;> simp [LLMManager.generateResponse, hc]
  | some p =>
    cases hcfg : (st.provider p).configured with
    | false =>
      refine ⟨?_, ?_, ?_, ?_⟩ <;> simp [LLMManager.generateResponse, hc, hcfg]
    | true =>
      have hne : ∀ (r : Except JSStr JSStr) (e : LLMManager.LLMError),
          ¬(LLMManager.wrapFetch r = Except.error (Sum.inl e)) := by
        intro r e
        cases r <;> simp [LLMManager.wrapFetch]
      refine ⟨?_, ?_, ?_, ?_⟩ <;>
        simp only [LLMManager.generateResponse, hc, hcfg] <;>
        split <;> simp_all

/-- Claim C6 witness: the default (fresh, nothing configured) manager
throws No LLM provider selected and issues no request. -/
theorem claim_C6_witness :
    (LLMManager.generateResponse LLMManager.defaultState []
        (fun _ => .error [])).2.2 = .error (.inl .noProvider) ∧
    (LLMManager.generateResponse LLMManager.defaultState []
        (fun _ => .error [])).2.1 = [] := by
  have h := claim_C6 LLMManager.defaultState [] (fun _ => .error [])
  exact ⟨h.1.mpr rfl, h.2.2.1 _ (h.1.mpr rfl)⟩

theorem loadEnv_toolsContext (st : OzwellIntegration.OzwellState)
    (env : OzwellIntegration.EnvVars) :
    (OzwellIntegration.loadEnvironmentVariables st env).toolsContext =
      st.toolsContext := by
  unfold OzwellIntegration.loadEnvironmentVariables
  repeat' split
  all_goals rfl

theorem loadEnv_sim_mono (st : OzwellIntegration.OzwellState)
    (env : OzwellIntegration.EnvVars) (h : st.useSimulationMode = true) :
    (OzwellIntegration.loadEnvironmentVariables st env).useSimulationMode =
      true := by
  unfold OzwellIntegration.loadEnvironmentVariables
  repeat' split
  all_goals first | rfl | exact h

theorem preState_toolsContext (st : OzwellIntegration.OzwellState)
    (env : OzwellIntegration.EnvVars) :
    (OzwellIntegration.ozwellPreState st env).toolsContext =
      st.toolsContext := by
  unfold OzwellIntegration.ozwellPreState
  dsimp only
  repeat' split
  all_goals first | rfl | exact loadEnv_toolsContext st env

theorem preState_sim_of (st : OzwellIntegration.OzwellState)
    (env : OzwellIntegration.EnvVars) (h : st.useSimulationMode = true) :
    (OzwellIntegration.ozwellPreState st env).useSimulationMode = true := by
  unfold OzwellIntegration.ozwellPreState
  dsimp only
  repeat' split
  all_goals first | rfl | exact h | exact loadEnv_sim_mono st env h

theorem preState_sim_of_keyless (st : OzwellIntegration.OzwellState)
    (env : OzwellIntegration.EnvVars)
    (h : (OzwellIntegration.loadEnvironmentVariables st env).apiKey = none)
    (h2 : st.apiKey = none) :
    (OzwellIntegration.ozwellPreState st env).useSimulationMode = true := by
  unfold OzwellIntegration.ozwellPreState
  dsimp only
  rw [if_pos h2]
  by_cases hs : (OzwellIntegration.loadEnvironmentVariables st env).useSimulationMode = false
  · rw [if_pos ⟨h, hs⟩]
  · rw [if_neg (fun hc => hs hc.2)]
    exact Bool.not_eq_false _ |>.mp hs

/-- Claim C4: OzwellIntegration.generateResponse never propagates an API
error: its result is always an ok text; when the real API call throws it
returns the simulated text for the same messages; when simulation mode is
on, or no API key is available even after reading the environment, it
returns the simulated text without attempting any API call. -/
theorem claim_C4 (st : OzwellIntegration.OzwellState)
    (env : OzwellIntegration.EnvVars) (messages : List ChatMessage)
    (apiResult : Except JSStr JSStr) :
    (∃ s, (OzwellIntegration.generateResponse st env apiResult messages).2.2 =
      .ok s) ∧
    (∀ e, apiResult = .error e →
      (OzwellIntegration.generateResponse st env apiResult messages).2.2 =
        .ok (OzwellIntegration.simulateOzwellAPI st.toolsContext messages)) ∧
    (st.useSimulationMode = true →
      (OzwellIntegration.generateResponse st env apiResult messages).2.1 =
        false ∧
      (OzwellIntegration.generateResponse st env apiResult messages).2.2 =
        .ok (OzwellIntegration.simulateOzwellAPI st.toolsContext messages)) ∧
    ((OzwellIntegration.loadEnvironmentVariables st env).apiKey = none ∧
        st.apiKey = none →
      (OzwellIntegration.generateResponse st env apiResult messages).2.1 =
        false ∧
      (OzwellIntegration.generateResponse st env apiResult messages).2.2 =
        .ok (OzwellIntegration.simulateOzwellAPI st.toolsContext messages)) := by
  have htc := preState_toolsContext st env
  refine ⟨?_, ?_, ?_, ?_⟩
  · simp only [OzwellIntegration.generateResponse]
    split
    · exact ⟨_, rfl⟩
    · cases apiResult with
      | ok r => exact ⟨r, rfl⟩
      | error e => exact ⟨_, rfl⟩
  · intro e he
    subst he
    simp only [OzwellIntegration.generateResponse]
    split
    · rw [htc]
    · rw [htc]
  · intro hsim
    have hs2 := preState_sim_of st env hsim
    simp only [OzwellIntegration.generateResponse, hs2, htc]
    exact ⟨rfl, by simp⟩
  · intro ⟨hka, hkb⟩
    have hs2 := preState_sim_of_keyless st env hka hkb
    simp only [OzwellIntegration.generateResponse, hs2, htc]
    exact ⟨rfl, by simp⟩

/-- Claim C4 witness: with simulation mode on and a failing API stub, the
call is not attempted and the simulated text is returned. -/
theorem claim_C4_witness :
    (OzwellIntegration.generateResponse
        { apiKey := none, baseUrl := jstr "u", model := jstr "m",
          useSimulationMode := true, toolsContext := none }
        {} (.error (jstr "boom")) []).2.2 =
      .ok (OzwellIntegration.simulateOzwellAPI none []) ∧
    (OzwellIntegration.generateResponse
        { apiKey := none, baseUrl := jstr "u", model := jstr "m",
          useSimulationMode := true, toolsContext := none }
        {} (.error (jstr "boom")) []).2.1 = false := by
  have h := claim_C4
    { apiKey := none, baseUrl := jstr "u", model := jstr "m",
      useSimulationMode := true, toolsContext := none }
    {} [] (.error (jstr "boom"))
  exact ⟨h.2.1 (jstr "boom") rfl, (h.2.2.1 rfl).1⟩

theorem doseMatchAt_iff (t : JSStr) :
    MCPClient.doseMatchAt t = true ↔
      ∃ d w u r : JSStr, t = d ++ (w ++ (u ++ r)) ∧ d ≠ [] ∧
        (∀ c ∈ d, c.isDigit = true) ∧ (∀ c ∈ w, isJsWs c = true) ∧
        toLowerStr u ∈ MCPClient.doseUnits := by
  unfold MCPClient.doseMatchAt
  simp only [List.any_eq_true, List.mem_range, Nat.lt_succ_iff,
    Bool.and_eq_true, List.all_eq_true, Bool.not_eq_true',
    strStarts_iff]
  constructor
  · rintro ⟨i, hi, j, hj, ⟨⟨hne, hdig⟩, hws⟩, u0, hu0, y, hy⟩
    refine ⟨t.take i, (t.drop i).take j,
      ((t.drop i).drop j).take u0.length,
      ((t.drop i).drop j).drop u0.length, ?_, ?_, hdig, hws, ?_⟩
    · simp [List.take_append_drop]
    · simpa using hne
    · have hmt : toLowerStr (((t.drop i).drop j).take u0.length) =
          (((t.drop i).drop j).map Char.toLower).take u0.length := by
        rw [toLowerStr, List.map_take]
      rw [hmt, ← hy, List.take_left]
      exact hu0
  · rintro ⟨d, w, u, r, rfl, hd, hdig, hws, hu⟩
    refine ⟨d.length, ?_, w.length, ?_, ⟨⟨?_, ?_⟩, ?_⟩, toLowerStr u, hu, ?_⟩
    · simp
    · simp only [List.length_append]
      omega
    · rw [List.take_left]
      simpa using hd
    · rw [List.take_left]
      exact hdig
    · rw [List.drop_left, List.take_left]
      exact hws
    · rw [List.drop_left, List.drop_left]
      exact ⟨toLowerStr r, by rw [toLowerStr, toLowerStr, ← List.map_append]⟩

theorem dosePatternTest_iff (s : JSStr) :
    MCPClient.dosePatternTest s = true ↔ DoseRegexSem s := by
  unfold MCPClient.dosePatternTest DoseRegexSem
  rw [List.any_eq_true]
  constructor
  · rintro ⟨t, ht, hmatch⟩
    obtain ⟨a, ha⟩ := (List.mem_tails _ _).mp ht
    obtain ⟨d, w, u, r, heq, hd, hdig, hws, hu⟩ :=
      (doseMatchAt_iff t).mp hmatch
    exact ⟨a, d, w, u, r, by rw [← ha, heq], hd, hdig, hws, hu⟩
  · rintro ⟨a, d, w, u, r, rfl, hd, hdig, hws, hu⟩
    refine ⟨d ++ (w ++ (u ++ r)), (List.mem_tails _ _).mpr ⟨a, rfl⟩, ?_⟩
    exact (doseMatchAt_iff _).mpr ⟨d, w, u, r, rfl, hd, hdig, hws, hu⟩

/-- Claim C7: isMedicationRequest msg is true exactly when msg matches the
dose regex (one or more digits, optional whitespace, then one of the unit
alternatives, case-insensitively, anywhere in the message), or msg contains
one of the add-keywords together with a medication keyword or one of the
hard-coded medication names. -/
theorem claim_C7 (msg : JSStr) :
    MCPClient.isMedicationRequest msg = true ↔
      (DoseRegexSem msg ∨
        ((∃ k ∈ MCPClient.addKeywords, k <:+: msg) ∧
          ((∃ k ∈ MCPClient.medicationKeywords, k <:+: msg) ∨
            (∃ m ∈ MCPClient.specificMeds, m <:+: msg)))) := by
  unfold MCPClient.isMedicationRequest
  simp only [Bool.or_eq_true, Bool.and_eq_true, List.any_eq_true,
    jsIncludes_iff, dosePatternTest_iff]
  exact or_comm

/-- Claim C2 (amended): per model response, processMessage sends at most one
mcp-execute-tool postMessage.  When the parser returns no tool calls, none
is sent; when it returns exactly one (the only possibility on the Ozwell
path), exactly one message is sent carrying the name and parameters of
that tool call; and in every case any message sent carries either the FIRST
tool call or the getContext fallback — elements after the first are never
relayed. -/
theorem claim_C2 (st : MCPClient.MCPState) (p : LLMManager.Provider)
    (jsonParse : JSStr → Option JSValue) (r : LLMResponseValue)
    (h : st.processingMessage = false) :
    (MCPClient.processMessage st (some p) jsonParse (.ok r)).2.length ≤ 1 ∧
    (LLMManager.parseToolCalls jsonParse r (some p) (some p) = [] →
      (MCPClient.processMessage st (some p) jsonParse (.ok r)).2 = []) ∧
    (∀ tc, LLMManager.parseToolCalls jsonParse r (some p) (some p) = [tc] →
      (MCPClient.processMessage st (some p) jsonParse (.ok r)).2 =
        [{ type := jstr "mcp-execute-tool",
           requestId := st.requestCounter + 1,
           toolName := tc.name, parameters := tc.parameters }]) ∧
    (∀ tc rest, LLMManager.parseToolCalls jsonParse r (some p) (some p) =
        tc :: rest →
      ∀ pm ∈ (MCPClient.processMessage st (some p) jsonParse (.ok r)).2,
        pm.toolName = tc.name ∨ pm.toolName = jstr "getContext") := by
  simp only [MCPClient.processMessage, h, Bool.false_eq_true, if_false]
  cases hts : LLMManager.parseToolCalls jsonParse r (some p) (some p) with
  | nil =>
    simp [MCPClient.executeToolViaMCP]
  | cons tc rest =>
    cases rest with
    | nil =>
      simp [MCPClient.executeToolViaMCP]
    | cons tc2 rest2 =>
      simp only [List.isEmpty_cons, Bool.false_eq_true, if_false]
      cases hk : (tc :: tc2 :: rest2).mapM
          (fun t => MCPClient.jsObjectKeys t.parameters) with
      | ok ks => simp [MCPClient.executeToolViaMCP]
      | error e2 =>
        by_cases h1 : jsIncludes e2 (jstr "No LLM provider selected") = true <;>
          by_cases h2 : jsIncludes e2 (jstr "not configured") = true <;>
          simp [MCPClient.executeToolViaMCP, h1, h2]

/-- Claim C2 counterexample: an OpenAI message carrying two function tool
calls parses to a two-element list, yet processMessage posts exactly one
mcp-execute-tool message, for the first element only — the second is never
relayed. -/
theorem claim_C2_counterexample :
    (LLMManager.parseToolCalls (fun _ => none)
        (.message none (some
          [{ id := JSValue.str (jstr "call-1"), type := jstr "function",
             functionName := jstr "addMedication",
             arguments := Sum.inr (JSValue.obj []) },
           { id := JSValue.str (jstr "call-2"), type := jstr "function",
             functionName := jstr "addAllergy",
             arguments := Sum.inr (JSValue.obj []) }]))
        (some .openai) (some .openai)).length = 2 ∧
    (MCPClient.processMessage { processingMessage := false, requestCounter := 0 }
        (some .openai) (fun _ => none)
        (.ok (.message none (some
          [{ id := JSValue.str (jstr "call-1"), type := jstr "function",
             functionName := jstr "addMedication",
             arguments := Sum.inr (JSValue.obj []) },
           { id := JSValue.str (jstr "call-2"), type := jstr "function",
             functionName := jstr "addAllergy",
             arguments := Sum.inr (JSValue.obj []) }])))).2 =
      [{ type := jstr "mcp-execute-tool", requestId := 1,
         toolName := jstr "addMedication",
         parameters := JSValue.obj [] }] :=
  ⟨rfl, rfl⟩

/-- Claim C2 witness: an Ozwell text response with one TOOL_CALL line leads
to exactly one posted mcp-execute-tool message with that name. -/
theorem claim_C2_witness :
    (MCPClient.processMessage { processingMessage := false, requestCounter := 0 }
        (some .ozwell) (fun _ => none)
        (.ok (.text (jstr "TOOL_CALL: getContext")))).2 =
      [{ type := jstr "mcp-execute-tool", requestId := 1,
         toolName := jstr "getContext", parameters := JSValue.null }] := by
  have h := claim_C2 { processingMessage := false, requestCounter := 0 }
    .ozwell (fun _ => none) (.text (jstr "TOOL_CALL: getContext")) rfl
  exact h.2.2.1 _ rfl
